import Mathlib

/-
Verification of the draw-state engine of draw.cpp: the roster store of
mode A (list draw), the range store of mode B (range draw), the shared
random sampler, and the CSV export of the draw history.  The definitions
below are a shallow embedding of the corresponding C++ functions; the
theorems at the end of the file settle the specification's claims about
them.
-/

set_option maxHeartbeats 1000000

namespace Draw

/-- Deterministic model of the seeded generator `mt19937 rng`: an abstract
stream of raw nonnegative draws together with a cursor.  Every call of a
`uniform_int_distribution` on the generator consumes exactly one draw of
the stream and moves the cursor. -/
structure RNG where
  stream : Nat → Nat
  pos : Nat

/-- Move the cursor of the generator forward by `k` draws. -/
def RNG.advance (r : RNG) (k : Nat) : RNG := ⟨r.stream, r.pos + k⟩

/-- Model of `uniform_int_distribution<int> dist(lo, hi); dist(rng)`: one
sample in the inclusive range `[lo, hi]`, consuming one raw draw. -/
def RNG.uniform (r : RNG) (lo hi : Int) : Int × RNG :=
  (lo + ((r.stream r.pos % (hi + 1 - lo).toNat : Nat) : Int), ⟨r.stream, r.pos + 1⟩)

/-- Running `dist(rng)` a fixed number of times and discarding the values,
as the animation loops of draw.cpp do. -/
def rngSkip (lo hi : Int) : Nat → RNG → RNG
  | 0, r => r
  | k + 1, r => rngSkip lo hi k (r.uniform lo hi).2

/-- Characters stripped by `trim` in draw.cpp (`" \t\r\n"`). -/
def isTrimWS (c : Char) : Bool := c = ' ' || c = '\t' || c = '\r' || c = '\n'

/-- Function `trim` of draw.cpp: remove leading and trailing blanks, tabs
and line breaks. -/
def trim (s : String) : String :=
  ⟨((s.data.dropWhile isTrimWS).reverse.dropWhile isTrimWS).reverse⟩

/-- Accumulator loop of `dedup_preserve_order`: push each element onto
`out` unless an equal element was already kept. -/
def dedupGo {α : Type} [DecidableEq α] : List α → List α → List α
  | [], out => out
  | x :: xs, out => dedupGo xs (if x ∈ out then out else out ++ [x])

/-- Function `dedup_preserve_order` of draw.cpp: keep the first occurrence
of every element, in order. -/
def dedup_preserve_order {α : Type} [DecidableEq α] (v : List α) : List α :=
  dedupGo v []

/-- Ghost companion of `dedupGo`: the elements `dedupGo` appends to its
accumulator, given the elements already seen. -/
def dedupNew {α : Type} [DecidableEq α] : List α → List α → List α
  | [], _ => []
  | x :: xs, seen => if x ∈ seen then dedupNew xs seen else x :: dedupNew xs (seen ++ [x])

/-- The error kinds named by the specification. -/
inductive DrawError
  | EmptyPool
  | NotConfigured
  | DomainError
  | IoError
  deriving DecidableEq

/-- State of mode A (`mode_list_draw`): the canonical roster `all`, the
remaining pool, and the draw history. -/
structure RosterState where
  all : List String
  pool : List String
  history : List String
  deriving DecidableEq

/-- Fresh mode A state: the three vectors start empty. -/
def roster_init : RosterState := ⟨[], [], []⟩

/-- Trimmed, non-empty lines of a batch of input lines (menu options 1 and
2 of mode A skip blank lines and trim the rest). -/
def clean_lines (lines : List String) : List String :=
  (lines.map trim).filter (fun l => l ≠ "")

/-- Menu options 1 and 2 of mode A: append every trimmed non-empty line to
both `all` and `pool`, then dedup both preserving order. -/
def add_many (s : RosterState) (lines : List String) : RosterState :=
  { s with
    all := dedup_preserve_order (s.all ++ clean_lines lines)
    pool := dedup_preserve_order (s.pool ++ clean_lines lines) }

/-- Function `animated_pick_index` of draw.cpp: 26 animation samples from
`uniform(0, |pool|-1)` are displayed and discarded, then the 27th sample
is returned as the deciding index. -/
def animated_pick_index (pool : List String) (r : RNG) : Int × RNG :=
  (rngSkip 0 ((pool.length : Int) - 1) 26 r).uniform 0 ((pool.length : Int) - 1)

/-- Menu option 3 of mode A: draw one name.  Returns the state and
generator after the operation together with the outcome. -/
def mode_list_op3 (s : RosterState) (r : RNG) :
    RosterState × RNG × Except DrawError String :=
  if s.pool = [] then (s, r, .error .EmptyPool)
  else
    let p := animated_pick_index s.pool r
    let idx := p.1.toNat
    let winner := s.pool.getD idx ""
    ({ s with pool := s.pool.eraseIdx idx, history := s.history ++ [winner] },
     p.2, .ok winner)

/-- Menu option 5 of mode A: reset, `pool = all; history.clear()`. -/
def mode_list_op5 (s : RosterState) : RosterState :=
  { s with pool := s.all, history := [] }

/-- Text written by `save_history_to_file` once the stream is open:
`fout << (i + 1) << "," << history[i] << "\n"` for each entry, starting
at index `i`. -/
def save_history_content : List String → Nat → String
  | [], _ => ""
  | name :: rest, i => toString (i + 1) ++ "," ++ name ++ "\n" ++ save_history_content rest (i + 1)

/-- Function `save_history_to_file` of draw.cpp: if the output stream
opens, the file ends up holding the CSV text; otherwise the function
returns silently and nothing is written. -/
def save_history_to_file (openOk : Bool) (history : List String) : Option String :=
  if openOk then some (save_history_content history 0) else none

/-- Messages the export path of mode A can show the user. -/
inductive ExportMsg
  | success (path : String)
  | ioError (path : String)
  deriving DecidableEq

/-- Menu option 6 of mode A: export the history.  `openOk` models whether
`ofstream fout(filename)` succeeded.  The source prints the success banner
with the path unconditionally after calling `save_history_to_file`. -/
def mode_list_op6 (openOk : Bool) (s : RosterState) (path : String) :
    RosterState × Option String × ExportMsg :=
  (s, save_history_to_file openOk s.history, ExportMsg.success path)

/-- State of mode B (`mode_range_draw`): the bound `N`, the no-repeat
flag, the remaining pool and the draw history. -/
structure RangeState where
  N : Int
  noRepeat : Bool
  pool : List Int
  history : List Int
  deriving DecidableEq

/-- Fresh mode B state: `N = 0`, no-repeat on, empty pool and history. -/
def range_init : RangeState := ⟨0, true, [], []⟩

/-- The list `[1, 2, ..., N]` (empty when `N ≤ 0`). -/
def rangeInts (N : Int) : List Int := (List.range N.toNat).map (fun i => Int.ofNat i + 1)

/-- Lambda `reset_pool` of `mode_range_draw`: clear both vectors, then
refill the pool with `1..N` when `N > 0`. -/
def reset_pool (s : RangeState) : RangeState :=
  if s.N ≤ 0 then { s with pool := [], history := [] }
  else { s with pool := rangeInts s.N, history := [] }

/-- Menu option 1 of mode B: set `N`.  A non-positive input is rejected
with `N` forced to `0` and both vectors cleared; a positive input is
stored and the pool rebuilt. -/
def mode_range_op1 (s : RangeState) (n : Int) : RangeState × Except DrawError Unit :=
  if n ≤ 0 then ({ s with N := 0, pool := [], history := [] }, .error .DomainError)
  else (reset_pool { s with N := n }, .ok ())

/-- Menu option 2 of mode B: flip the no-repeat flag; only when the flag
becomes true is `reset_pool` run. -/
def mode_range_op2 (s : RangeState) : RangeState :=
  let s' := { s with noRepeat := !s.noRepeat }
  if s'.noRepeat then reset_pool s' else s'

/-- Function `animated_pick_number` of draw.cpp: 32 animation samples from
`uniform(1, N)` are displayed and discarded, then a 33rd sample is
returned. -/
def animated_pick_number (N : Int) (r : RNG) : Int × RNG :=
  (rngSkip 1 N 32 r).uniform 1 N

/-- Menu option 3 of mode B: draw one number.  With no-repeat on, the
animation's returned value is discarded and a fresh `uniform(0, |pool|-1)`
index selects the result from the pool; with no-repeat off, the
animation's returned value itself is recorded. -/
def mode_range_op3 (s : RangeState) (r : RNG) :
    RangeState × RNG × Except DrawError Int :=
  if s.N ≤ 0 then (s, r, .error .NotConfigured)
  else if s.noRepeat then
    if s.pool = [] then (s, r, .error .EmptyPool)
    else
      let r1 := (animated_pick_number s.N r).2
      let p := r1.uniform 0 ((s.pool.length : Int) - 1)
      let idx := p.1.toNat
      let result := s.pool.getD idx 0
      ({ s with pool := s.pool.eraseIdx idx, history := s.history ++ [result] },
       p.2, .ok result)
  else
    let p := animated_pick_number s.N r
    ({ s with history := s.history ++ [p.1] }, p.2, .ok p.1)

/-- Menu option 5 of mode B: reset. -/
def mode_range_op5 (s : RangeState) : RangeState := reset_pool s

/-- Operations a mode A session can perform on its store. -/
inductive RosterOp
  | addMany (lines : List String)
  | draw
  | reset

/-- A mode A session: the store together with the shared generator. -/
structure RosterM where
  st : RosterState
  rng : RNG

/-- One menu dispatch of mode A. -/
def roster_step (m : RosterM) : RosterOp → RosterM
  | .addMany lines => ⟨add_many m.st lines, m.rng⟩
  | .draw => let t := mode_list_op3 m.st m.rng; ⟨t.1, t.2.1⟩
  | .reset => ⟨mode_list_op5 m.st, m.rng⟩

/-- Run a sequence of mode A operations. -/
def roster_run (m : RosterM) : List RosterOp → RosterM
  | [] => m
  | op :: ops => roster_run (roster_step m op) ops

/-- Operations a mode B session can perform on its store. -/
inductive RangeOp
  | setN (n : Int)
  | toggle
  | draw
  | reset

/-- A mode B session: the store together with the shared generator. -/
structure RangeM where
  st : RangeState
  rng : RNG

/-- One menu dispatch of mode B. -/
def range_step (m : RangeM) : RangeOp → RangeM
  | .setN n => ⟨(mode_range_op1 m.st n).1, m.rng⟩
  | .toggle => ⟨mode_range_op2 m.st, m.rng⟩
  | .draw => let t := mode_range_op3 m.st m.rng; ⟨t.1, t.2.1⟩
  | .reset => ⟨mode_range_op5 m.st, m.rng⟩

/-- Run a sequence of mode B operations. -/
def range_run (m : RangeM) : List RangeOp → RangeM
  | [] => m
  | op :: ops => range_run (range_step m op) ops

/-- A concrete generator whose raw stream is constantly zero. -/
def zeroRNG : RNG := ⟨fun _ => 0, 0⟩

/-- The deciding sample of a roster draw, as the specification phrases it:
one `uniform(0, |pool|-1)` sample of the shared generator (here after the
26 animation samples). -/
def roster_draw_pick (s : RosterState) (r : RNG) : Int × RNG :=
  (r.advance 26).uniform 0 ((s.pool.length : Int) - 1)

/-- Index a roster draw removes: the 27th raw draw reduced mod the pool
size. -/
def list_draw_idx (s : RosterState) (r : RNG) : Nat :=
  r.stream (r.pos + 26) % s.pool.length

/-- Index a no-repeat range draw removes: the 34th raw draw reduced mod
the pool size (the animation consumed the first 33). -/
def range_draw_idx (s : RangeState) (r : RNG) : Nat :=
  r.stream (r.pos + 33) % s.pool.length

theorem rngSkip_eq (lo hi : Int) : ∀ (k : Nat) (r : RNG), rngSkip lo hi k r = r.advance k
  | 0, r => by simp [rngSkip, RNG.advance]
  | k + 1, r => by
    rw [rngSkip, rngSkip_eq lo hi k]
    simp only [RNG.uniform, RNG.advance, RNG.mk.injEq, true_and]
    omega

theorem uniform_idx (r : RNG) (n : Nat) :
    r.uniform 0 ((n : Int) - 1) =
      (((r.stream r.pos % n : Nat) : Int), ⟨r.stream, r.pos + 1⟩) := by
  have h : ((n : Int) - 1 + 1 - 0).toNat = n := by omega
  simp [RNG.uniform, h]

theorem uniform_one_N (r : RNG) (N : Int) :
    r.uniform 1 N =
      (1 + ((r.stream r.pos % N.toNat : Nat) : Int), ⟨r.stream, r.pos + 1⟩) := by
  have h : (N + 1 - 1).toNat = N.toNat := by omega
  simp [RNG.uniform, h]

theorem animated_pick_index_eq (pool : List String) (r : RNG) :
    animated_pick_index pool r =
      (((r.stream (r.pos + 26) % pool.length : Nat) : Int), ⟨r.stream, r.pos + 27⟩) := by
  unfold animated_pick_index
  rw [rngSkip_eq, uniform_idx]
  simp only [RNG.advance, Prod.mk.injEq, RNG.mk.injEq, true_and]

theorem animated_pick_number_eq (N : Int) (r : RNG) :
    animated_pick_number N r =
      (1 + ((r.stream (r.pos + 32) % N.toNat : Nat) : Int), ⟨r.stream, r.pos + 33⟩) := by
  unfold animated_pick_number
  rw [rngSkip_eq, uniform_one_N]
  simp only [RNG.advance, Prod.mk.injEq, RNG.mk.injEq, true_and]

theorem list_draw_idx_lt (s : RosterState) (r : RNG) (h : s.pool ≠ []) :
    list_draw_idx s r < s.pool.length :=
  Nat.mod_lt _ (List.length_pos.2 h)

theorem range_draw_idx_lt (s : RangeState) (r : RNG) (h : s.pool ≠ []) :
    range_draw_idx s r < s.pool.length :=
  Nat.mod_lt _ (List.length_pos.2 h)

theorem mode_list_op3_empty (s : RosterState) (r : RNG) (h : s.pool = []) :
    mode_list_op3 s r = (s, r, .error .EmptyPool) := by
  simp [mode_list_op3, h]

theorem mode_list_op3_eq (s : RosterState) (r : RNG) (h : s.pool ≠ []) :
    mode_list_op3 s r =
      ({ s with pool := s.pool.eraseIdx (list_draw_idx s r),
                history := s.history ++ [s.pool.getD (list_draw_idx s r) ""] },
       ⟨r.stream, r.pos + 27⟩, .ok (s.pool.getD (list_draw_idx s r) "")) := by
  simp only [mode_list_op3, h, if_neg, animated_pick_index_eq, Int.toNat_natCast, list_draw_idx]
  simp

theorem mode_range_op3_notconf (s : RangeState) (r : RNG) (h : s.N ≤ 0) :
    mode_range_op3 s r = (s, r, .error .NotConfigured) := by
  simp [mode_range_op3, h]

theorem mode_range_op3_empty (s : RangeState) (r : RNG) (hN : 0 < s.N)
    (hnr : s.noRepeat = true) (h : s.pool = []) :
    mode_range_op3 s r = (s, r, .error .EmptyPool) := by
  rw [mode_range_op3, if_neg (by omega), if_pos hnr, if_pos h]

theorem mode_range_op3_eq (s : RangeState) (r : RNG) (hN : 0 < s.N)
    (hnr : s.noRepeat = true) (h : s.pool ≠ []) :
    mode_range_op3 s r =
      ({ s with pool := s.pool.eraseIdx (range_draw_idx s r),
                history := s.history ++ [s.pool.getD (range_draw_idx s r) 0] },
       ⟨r.stream, r.pos + 34⟩, .ok (s.pool.getD (range_draw_idx s r) 0)) := by
  rw [mode_range_op3, if_neg (by omega), if_pos hnr, if_neg h]
  simp only [animated_pick_number_eq, uniform_idx, Int.toNat_natCast, range_draw_idx]

theorem mode_range_op3_repeat (s : RangeState) (r : RNG) (hN : 0 < s.N)
    (hnr : s.noRepeat = false) :
    mode_range_op3 s r =
      ({ s with history := s.history ++ [1 + ((r.stream (r.pos + 32) % s.N.toNat : Nat) : Int)] },
       ⟨r.stream, r.pos + 33⟩,
       .ok (1 + ((r.stream (r.pos + 32) % s.N.toNat : Nat) : Int))) := by
  rw [mode_range_op3, if_neg (by omega), if_neg (by simp [hnr])]
  simp only [animated_pick_number_eq]

theorem perm_cons_eraseIdx {α : Type} (l : List α) (i : Nat) (d : α) (h : i < l.length) :
    List.Perm l (l.getD i d :: l.eraseIdx i) := by
  rw [List.eraseIdx_eq_take_drop_succ, List.getD_eq_getElem l d h]
  conv_lhs => rw [← List.take_append_drop i l, List.drop_eq_getElem_cons h]
  exact List.perm_middle

theorem dedupGo_eq_append {α : Type} [DecidableEq α] :
    ∀ (v out : List α), dedupGo v out = out ++ dedupNew v out
  | [], out => by simp [dedupGo, dedupNew]
  | x :: xs, out => by
    by_cases hx : x ∈ out
    · rw [dedupGo, if_pos hx, dedupNew, if_pos hx, dedupGo_eq_append]
    · rw [dedupGo, if_neg hx, dedupNew, if_neg hx, dedupGo_eq_append]
      simp

theorem mem_dedupNew {α : Type} [DecidableEq α] (y : α) (v : List α) :
    ∀ seen, y ∈ dedupNew v seen ↔ y ∈ v ∧ y ∉ seen := by
  induction v with
  | nil => intro seen; simp [dedupNew]
  | cons x xs ih =>
    intro seen
    by_cases hx : x ∈ seen
    · rw [dedupNew, if_pos hx, ih]
      constructor
      · rintro ⟨h1, h2⟩
        exact ⟨List.mem_cons_of_mem x h1, h2⟩
      · rintro ⟨h1, h2⟩
        rcases List.mem_cons.1 h1 with rfl | h1
        · exact absurd hx h2
        · exact ⟨h1, h2⟩
    · rw [dedupNew, if_neg hx, List.mem_cons, ih]
      constructor
      · rintro (rfl | ⟨h1, h2⟩)
        · exact ⟨List.mem_cons_self y xs, hx⟩
        · refine ⟨List.mem_cons_of_mem x h1, fun hy => h2 ?_⟩
          exact List.mem_append_left [x] hy
      · rintro ⟨h1, h2⟩
        rcases List.mem_cons.1 h1 with rfl | h1
        · exact Or.inl rfl
        · by_cases hyx : y = x
          · exact Or.inl hyx
          · refine Or.inr ⟨h1, fun hy => ?_⟩
            rcases List.mem_append.1 hy with hy | hy
            · exact h2 hy
            · exact hyx (List.mem_singleton.1 hy)

theorem dedupNew_nodup {α : Type} [DecidableEq α] (v : List α) :
    ∀ seen, (dedupNew v seen).Nodup := by
  induction v with
  | nil => intro seen; simp [dedupNew]
  | cons x xs ih =>
    intro seen
    by_cases hx : x ∈ seen
    · rw [dedupNew, if_pos hx]
      exact ih seen
    · rw [dedupNew, if_neg hx]
      refine List.nodup_cons.2 ⟨fun hmem => ?_, ih _⟩
      have hm := (mem_dedupNew x xs _).1 hmem
      exact hm.2 (List.mem_append_right seen (List.mem_singleton.2 rfl))

theorem dedupNew_eq_nil {α : Type} [DecidableEq α] :
    ∀ (v seen : List α), (∀ y ∈ v, y ∈ seen) → dedupNew v seen = []
  | [], _, _ => rfl
  | x :: xs, seen, h => by
    rw [dedupNew, if_pos (h x (List.mem_cons_self x xs))]
    exact dedupNew_eq_nil xs seen (fun y hy => h y (List.mem_cons_of_mem x hy))

theorem dedupNew_of_nodup {α : Type} [DecidableEq α] :
    ∀ (v seen : List α), v.Nodup → (∀ y ∈ v, y ∉ seen) → dedupNew v seen = v
  | [], _, _, _ => rfl
  | x :: xs, seen, hnd, h => by
    rw [dedupNew, if_neg (h x (List.mem_cons_self x xs))]
    congr 1
    refine dedupNew_of_nodup xs (seen ++ [x]) (List.nodup_cons.1 hnd).2 ?_
    intro y hy hmem
    rcases List.mem_append.1 hmem with hc | hc
    · exact h y (List.mem_cons_of_mem x hy) hc
    · rw [List.mem_singleton] at hc
      subst hc
      exact (List.nodup_cons.1 hnd).1 hy

theorem dedupNew_congr {α : Type} [DecidableEq α] :
    ∀ (v s₁ s₂ : List α), (∀ y ∈ v, (y ∈ s₁ ↔ y ∈ s₂)) → dedupNew v s₁ = dedupNew v s₂
  | [], _, _, _ => rfl
  | x :: xs, s₁, s₂, h => by
    by_cases hx : x ∈ s₁
    · rw [dedupNew, if_pos hx, dedupNew, if_pos ((h x (List.mem_cons_self x xs)).1 hx)]
      exact dedupNew_congr xs s₁ s₂ (fun y hy => h y (List.mem_cons_of_mem x hy))
    · have hx2 : x ∉ s₂ := fun hc => hx ((h x (List.mem_cons_self x xs)).2 hc)
      rw [dedupNew, if_neg hx, dedupNew, if_neg hx2]
      congr 1
      refine dedupNew_congr xs (s₁ ++ [x]) (s₂ ++ [x]) ?_
      intro y hy
      rw [List.mem_append, List.mem_append, h y (List.mem_cons_of_mem x hy)]

theorem dedupGo_split {α : Type} [DecidableEq α] :
    ∀ (u v out : List α), dedupGo (u ++ v) out = dedupGo v (dedupGo u out)
  | [], _, _ => rfl
  | x :: xs, v, out => by
    rw [List.cons_append, dedupGo, dedupGo, dedupGo_split]

theorem dedup_of_nodup {α : Type} [DecidableEq α] (l : List α) (h : l.Nodup) :
    dedup_preserve_order l = l := by
  unfold dedup_preserve_order
  rw [dedupGo_eq_append, dedupNew_of_nodup l [] h (by simp)]
  simp

theorem dedup_nodup {α : Type} [DecidableEq α] (l : List α) :
    (dedup_preserve_order l).Nodup := by
  unfold dedup_preserve_order
  rw [dedupGo_eq_append]
  simpa using dedupNew_nodup l []

theorem mem_dedup {α : Type} [DecidableEq α] (y : α) (l : List α) :
    y ∈ dedup_preserve_order l ↔ y ∈ l := by
  unfold dedup_preserve_order
  rw [dedupGo_eq_append]
  simp [mem_dedupNew]

theorem dedup_append {α : Type} [DecidableEq α] (l c : List α) (h : l.Nodup) :
    dedup_preserve_order (l ++ c) = l ++ dedupNew c l := by
  unfold dedup_preserve_order
  rw [dedupGo_split]
  have h1 : dedupGo l [] = l := dedup_of_nodup l h
  rw [h1, dedupGo_eq_append]

/-- The store invariant of mode A: the history and the remaining pool
together are a permutation of the deduplicated roster. -/
def RosterInv (s : RosterState) : Prop :=
  List.Perm (s.history ++ s.pool) s.all ∧ s.all.Nodup

/-- Precondition under which a mode A operation keeps the invariant: a
batch add must not contain a name that was already drawn. -/
def roster_ok (s : RosterState) : RosterOp → Prop
  | .addMany lines => ∀ y ∈ clean_lines lines, y ∉ s.history
  | .draw => True
  | .reset => True

/-- A whole operation sequence satisfying `roster_ok` at every step. -/
def roster_good : RosterM → List RosterOp → Prop
  | _, [] => True
  | m, op :: ops => roster_ok m.st op ∧ roster_good (roster_step m op) ops

instance roster_ok_dec (s : RosterState) : (op : RosterOp) → Decidable (roster_ok s op)
  | .addMany lines => inferInstanceAs (Decidable (∀ y ∈ clean_lines lines, y ∉ s.history))
  | .draw => .isTrue trivial
  | .reset => .isTrue trivial

instance roster_good_dec : (m : RosterM) → (ops : List RosterOp) → Decidable (roster_good m ops)
  | _, [] => .isTrue trivial
  | m, op :: ops =>
    @instDecidableAnd _ _ (roster_ok_dec m.st op) (roster_good_dec (roster_step m op) ops)

theorem add_many_inv (s : RosterState) (lines : List String) (hInv : RosterInv s)
    (hok : ∀ y ∈ clean_lines lines, y ∉ s.history) : RosterInv (add_many s lines) := by
  obtain ⟨hperm, hnodup⟩ := hInv
  have hpoolhist : (s.history ++ s.pool).Nodup := hperm.nodup_iff.2 hnodup
  have hpool : s.pool.Nodup := (List.nodup_append.1 hpoolhist).2.1
  have hmemiff : ∀ y ∈ clean_lines lines, (y ∈ s.pool ↔ y ∈ s.all) := by
    intro y hy
    rw [← hperm.mem_iff, List.mem_append]
    constructor
    · exact Or.inr
    · rintro (hc | hc)
      · exact absurd hc (hok y hy)
      · exact hc
  constructor
  · show List.Perm (s.history ++ dedup_preserve_order (s.pool ++ clean_lines lines))
      (dedup_preserve_order (s.all ++ clean_lines lines))
    rw [dedup_append s.pool _ hpool, dedup_append s.all _ hnodup,
      dedupNew_congr (clean_lines lines) s.pool s.all hmemiff, ← List.append_assoc]
    exact hperm.append_right _
  · exact dedup_nodup _

theorem list_op3_inv (s : RosterState) (r : RNG) (h : RosterInv s) :
    RosterInv (mode_list_op3 s r).1 := by
  by_cases hp : s.pool = []
  · rw [mode_list_op3_empty s r hp]
    exact h
  · rw [mode_list_op3_eq s r hp]
    obtain ⟨hperm, hnodup⟩ := h
    refine ⟨?_, hnodup⟩
    show List.Perm ((s.history ++ [s.pool.getD (list_draw_idx s r) ""]) ++
      s.pool.eraseIdx (list_draw_idx s r)) s.all
    have hpperm := perm_cons_eraseIdx s.pool (list_draw_idx s r) "" (list_draw_idx_lt s r hp)
    rw [List.append_assoc]
    exact List.Perm.trans (hpperm.symm.append_left s.history) hperm

theorem list_op5_inv (s : RosterState) (h : RosterInv s) : RosterInv (mode_list_op5 s) := by
  obtain ⟨_, hnodup⟩ := h
  exact ⟨by simp [mode_list_op5], hnodup⟩

theorem roster_step_inv (m : RosterM) (op : RosterOp) (hInv : RosterInv m.st)
    (hok : roster_ok m.st op) : RosterInv (roster_step m op).st := by
  cases op with
  | addMany lines => exact add_many_inv m.st lines hInv hok
  | draw => exact list_op3_inv m.st m.rng hInv
  | reset => exact list_op5_inv m.st hInv

theorem roster_run_inv :
    ∀ (ops : List RosterOp) (m : RosterM), RosterInv m.st → roster_good m ops →
      RosterInv (roster_run m ops).st
  | [], _, h, _ => h
  | op :: ops, m, h, hg =>
    roster_run_inv ops (roster_step m op) (roster_step_inv m op h hg.1) hg.2

/-- The store invariant of mode B: whenever no-repeat is on, the history
and the remaining pool together are a permutation of `[1..N]`. -/
def RangeInv (s : RangeState) : Prop :=
  s.noRepeat = true → List.Perm (s.history ++ s.pool) (rangeInts s.N)

theorem rangeInts_nonpos (N : Int) (h : N ≤ 0) : rangeInts N = [] := by
  unfold rangeInts
  rw [Int.toNat_of_nonpos h]
  rfl

theorem rangeInts_nodup (N : Int) : (rangeInts N).Nodup := by
  unfold rangeInts
  refine (List.nodup_range _).map ?_
  intro a b hab
  simp only [Int.ofNat_eq_coe] at hab
  omega

theorem mem_rangeInts (N : Int) (x : Int) : x ∈ rangeInts N ↔ 1 ≤ x ∧ x ≤ N := by
  unfold rangeInts
  simp only [List.mem_map, List.mem_range, Int.ofNat_eq_coe]
  constructor
  · rintro ⟨i, hi, rfl⟩
    omega
  · rintro ⟨h1, h2⟩
    exact ⟨(x - 1).toNat, by omega, by omega⟩

theorem reset_pool_inv (s : RangeState) : RangeInv (reset_pool s) := by
  unfold RangeInv reset_pool
  by_cases h : s.N ≤ 0
  · rw [if_pos h]
    intro _
    show List.Perm ([] ++ []) (rangeInts s.N)
    rw [rangeInts_nonpos s.N h]
    exact List.Perm.refl _
  · rw [if_neg h]
    intro _
    exact List.Perm.refl _

theorem range_op1_inv (s : RangeState) (n : Int) : RangeInv (mode_range_op1 s n).1 := by
  unfold mode_range_op1
  by_cases hn : n ≤ 0
  · rw [if_pos hn]
    intro _
    exact List.Perm.refl []
  · rw [if_neg hn]
    exact reset_pool_inv _

theorem range_op2_inv (s : RangeState) : RangeInv (mode_range_op2 s) := by
  unfold mode_range_op2
  cases hflag : s.noRepeat with
  | false =>
    simp only [hflag, Bool.not_false, if_pos]
    exact reset_pool_inv _
  | true =>
    simp only [hflag, Bool.not_true, Bool.false_eq_true, if_neg, not_false_eq_true]
    intro hc
    simp at hc

theorem range_op3_inv (s : RangeState) (r : RNG) (h : RangeInv s) :
    RangeInv (mode_range_op3 s r).1 := by
  by_cases hN : s.N ≤ 0
  · rw [mode_range_op3_notconf s r hN]
    exact h
  · cases hflag : s.noRepeat with
    | false =>
      rw [mode_range_op3_repeat s r (by omega) hflag]
      intro hc
      simp only [hflag] at hc
      cases hc
    | true =>
      by_cases hp : s.pool = []
      · rw [mode_range_op3_empty s r (by omega) hflag hp]
        exact h
      · rw [mode_range_op3_eq s r (by omega) hflag hp]
        intro _
        have hperm := h hflag
        show List.Perm ((s.history ++ [s.pool.getD (range_draw_idx s r) 0]) ++
          s.pool.eraseIdx (range_draw_idx s r)) (rangeInts s.N)
        have hpperm := perm_cons_eraseIdx s.pool (range_draw_idx s r) 0 (range_draw_idx_lt s r hp)
        rw [List.append_assoc]
        exact List.Perm.trans (hpperm.symm.append_left s.history) hperm

theorem range_step_inv (m : RangeM) (op : RangeOp) (h : RangeInv m.st) :
    RangeInv (range_step m op).st := by
  cases op with
  | setN n => exact range_op1_inv m.st n
  | toggle => exact range_op2_inv m.st
  | draw => exact range_op3_inv m.st m.rng h
  | reset => exact reset_pool_inv m.st

theorem range_run_inv :
    ∀ (ops : List RangeOp) (m : RangeM), RangeInv m.st → RangeInv (range_run m ops).st
  | [], _, h => h
  | op :: ops, m, h => range_run_inv ops (range_step m op) (range_step_inv m op h)

theorem range_inv_props (s : RangeState) (hperm : List.Perm (s.history ++ s.pool) (rangeInts s.N)) :
    s.pool.inter s.history = [] ∧ s.history.Nodup := by
  have hnd : (s.history ++ s.pool).Nodup := hperm.nodup_iff.2 (rangeInts_nodup s.N)
  obtain ⟨h1, _, h3⟩ := List.nodup_append.1 hnd
  exact ⟨List.inter_eq_nil_iff_disjoint.2 (fun a ha hb => h3 hb ha), h1⟩

theorem mode_range_op1_neg (s : RangeState) (n : Int) (hn : n ≤ 0) :
    mode_range_op1 s n = (⟨0, s.noRepeat, [], []⟩, Except.error DrawError.DomainError) := by
  simp [mode_range_op1, hn]

theorem mode_range_op1_pos (s : RangeState) (n : Int) (hn : 0 < n) :
    mode_range_op1 s n = (⟨n, s.noRepeat, rangeInts n, []⟩, Except.ok ()) := by
  have hn' : ¬ n ≤ 0 := by omega
  simp [mode_range_op1, reset_pool, hn']

/-- Concrete bad trace for mode A: add "A", draw it, then add "A" again. -/
def rosterBad : RosterState :=
  (roster_run ⟨roster_init, zeroRNG⟩
    [RosterOp.addMany ["A"], RosterOp.draw, RosterOp.addMany ["A"]]).st

/-- Concrete good trace for mode A: adds never repeat a drawn name. -/
def demoRosterOps : List RosterOp :=
  [RosterOp.addMany ["Ann", "Bob"], RosterOp.draw, RosterOp.reset, RosterOp.addMany ["Cid"]]

/-- State reached by the concrete good mode A trace. -/
def rosterDemo : RosterState := (roster_run ⟨roster_init, zeroRNG⟩ demoRosterOps).st

/-- Concrete mode B trace: set N to 3 and draw once. -/
def demoRangeOps : List RangeOp := [RangeOp.setN 3, RangeOp.draw]

/-- State reached by the concrete mode B trace. -/
def rangeDemo : RangeState := (range_run ⟨range_init, zeroRNG⟩ demoRangeOps).st

/-- Concrete mode B trace ending in a toggle from no-repeat to repeat. -/
def rangeToggleDemo : RangeState :=
  (range_run ⟨range_init, zeroRNG⟩ [RangeOp.setN 1, RangeOp.draw, RangeOp.toggle]).st

/-- A mode A state with a populated pool. -/
def demoRoster : RosterState := ⟨["Ann", "Bob", "Cid"], ["Ann", "Bob", "Cid"], []⟩

/-- A configured mode B state with a full pool. -/
def demoRange : RangeState := ⟨3, true, [1, 2, 3], []⟩

/-- A configured mode B state whose pool has been exhausted. -/
def demoRangeEmptyPool : RangeState := ⟨3, true, [], [1, 2, 3]⟩

/-- A configured mode B state used for the set-N witness. -/
def demoRange5 : RangeState := ⟨5, true, [1], [2]⟩

/-- C1, counterexample: starting from the empty roster, add "A", draw it
(so "A" moves to `history`), then call `add_many ["A"]` again.  The dedup
only inspects `all` and `pool` separately, so "A" re-enters `pool` while
staying in `history`: the two are no longer disjoint and
`|all| = 1 ≠ |pool| + |history| = 2`. -/
theorem roster_invariants_refuted_on_readd :
    ¬ (rosterBad.pool.inter rosterBad.history = [] ∧
       rosterBad.all.length = rosterBad.pool.length + rosterBad.history.length ∧
       rosterBad.all.Nodup) := by decide

/-- C1 (amended): the roster-store invariants — `pool` and `history`
disjoint, `|all| = |pool| + |history|`, and `all` duplicate-free — hold
after every sequence of add/draw/reset operations in which no add batch
contains a (trimmed) name that is already in `history` at that point.
The original claim's "in particular when add_many is called with an
already-drawn name" is exactly the case that fails. -/
theorem roster_invariants_hold (r : RNG) (ops : List RosterOp) (s : RosterState)
    (hs : s = (roster_run ⟨roster_init, r⟩ ops).st)
    (hg : roster_good ⟨roster_init, r⟩ ops) :
    s.pool.inter s.history = [] ∧
    s.all.length = s.pool.length + s.history.length ∧ s.all.Nodup := by
  subst hs
  obtain ⟨hperm, hnodup⟩ :=
    roster_run_inv ops ⟨roster_init, r⟩ ⟨List.Perm.refl [], List.nodup_nil⟩ hg
  have hnd := hperm.nodup_iff.2 hnodup
  obtain ⟨_, _, h3⟩ := List.nodup_append.1 hnd
  have hlen := hperm.length_eq
  rw [List.length_append] at hlen
  exact ⟨List.inter_eq_nil_iff_disjoint.2 (fun a ha hb => h3 hb ha), by omega, hnodup⟩

/-- Witness for the amended C1 theorem at a concrete good trace. -/
theorem roster_invariants_hold_witness :
    roster_good ⟨roster_init, zeroRNG⟩ demoRosterOps ∧
    (rosterDemo.pool.inter rosterDemo.history = [] ∧
     rosterDemo.all.length = rosterDemo.pool.length + rosterDemo.history.length ∧
     rosterDemo.all.Nodup) :=
  ⟨by decide, roster_invariants_hold zeroRNG demoRosterOps rosterDemo rfl (by decide)⟩

/-- C3, counterexample: set N=1, draw (history becomes [1]), then toggle
no-repeat from true to false.  The flag is now false but the history was
NOT reset to []. -/
theorem toggle_off_clears_history_cex :
    rangeToggleDemo.noRepeat = false ∧ rangeToggleDemo.history ≠ [] := by decide

/-- C3 (amended): toggling no-repeat from true to false flips only the
flag; `pool`, `history` and `N` are left unchanged (no reset occurs).
The reset happens only when the flag becomes true. -/
theorem toggle_off_keeps_history (s : RangeState) (h : s.noRepeat = true) :
    mode_range_op2 s = { s with noRepeat := false } := by
  simp [mode_range_op2, h]

/-- Witness for the amended C3 theorem. -/
theorem toggle_off_keeps_history_witness :
    mode_range_op2 ⟨3, true, [1, 2], [3]⟩ = (⟨3, false, [1, 2], [3]⟩ : RangeState) :=
  toggle_off_keeps_history ⟨3, true, [1, 2], [3]⟩ rfl

/-- C4, counterexample: with the output file failing to open, the export
path still shows the success banner with the path and never reports an
IoError, contradicting "the failure is reported to the user" and "on
failure no success is reported". -/
theorem export_failure_cex :
    (mode_list_op6 false roster_init "out.csv").2.2 = ExportMsg.success "out.csv" ∧
    (mode_list_op6 false roster_init "out.csv").2.2 ≠ ExportMsg.ioError "out.csv" :=
  ⟨rfl, by decide⟩

/-- C4 (amended): when the CSV file cannot be opened, nothing is written
and the in-memory store is unchanged — but the failure is not reported:
`save_history_to_file` returns silently and the caller prints the success
banner with the path regardless of the outcome. -/
theorem export_failure_amended (openOk : Bool) (s : RosterState) (path : String) :
    (mode_list_op6 openOk s path).1 = s ∧
    (mode_list_op6 false s path).2.1 = none ∧
    (mode_list_op6 openOk s path).2.2 = ExportMsg.success path :=
  ⟨rfl, rfl, rfl⟩

/-- C5: after every sequence of mode B operations, whenever no-repeat is
on, `history ++ pool` is a permutation of `[1..N]` (hence
`pool ∪ history = {1..N}` as sets), `pool ∩ history = ∅`, and every
element of `history` is unique. -/
theorem range_noRepeat_invariant (r : RNG) (ops : List RangeOp) (s : RangeState)
    (hs : s = (range_run ⟨range_init, r⟩ ops).st) (hnr : s.noRepeat = true) :
    List.Perm (s.history ++ s.pool) (rangeInts s.N) ∧
    (∀ x : Int, (x ∈ s.pool ∨ x ∈ s.history) ↔ (1 ≤ x ∧ x ≤ s.N)) ∧
    s.pool.inter s.history = [] ∧ s.history.Nodup := by
  subst hs
  have hperm := range_run_inv ops ⟨range_init, r⟩ (fun _ => List.Perm.refl []) hnr
  obtain ⟨h1, h2⟩ := range_inv_props _ hperm
  refine ⟨hperm, ?_, h1, h2⟩
  intro x
  rw [← mem_rangeInts _ x, ← hperm.mem_iff, List.mem_append, or_comm]

/-- Witness for C5 at the concrete trace set-N 3 then draw. -/
theorem range_noRepeat_invariant_witness :
    rangeDemo.noRepeat = true ∧
    (List.Perm (rangeDemo.history ++ rangeDemo.pool) (rangeInts rangeDemo.N) ∧
     (∀ x : Int, (x ∈ rangeDemo.pool ∨ x ∈ rangeDemo.history) ↔ (1 ≤ x ∧ x ≤ rangeDemo.N)) ∧
     rangeDemo.pool.inter rangeDemo.history = [] ∧ rangeDemo.history.Nodup) :=
  ⟨by decide, range_noRepeat_invariant zeroRNG demoRangeOps rangeDemo rfl (by decide)⟩

/-- C7: `add_many` is idempotent — running the same batch twice yields the
same `all` and `pool` (indeed the same whole state) as running it once —
and the dedup example holds: adding `["  Alice ", "Alice", "Bob",
"Alice"]` to the fresh store gives `all = pool = ["Alice", "Bob"]`. -/
theorem add_many_idempotent :
    (∀ (s : RosterState) (lines : List String),
      add_many (add_many s lines) lines = add_many s lines) ∧
    add_many roster_init ["  Alice ", "Alice", "Bob", "Alice"] =
      (⟨["Alice", "Bob"], ["Alice", "Bob"], []⟩ : RosterState) := by
  constructor
  · intro s lines
    have k : ∀ (l : List String),
        dedup_preserve_order (dedup_preserve_order (l ++ clean_lines lines) ++ clean_lines lines) =
          dedup_preserve_order (l ++ clean_lines lines) := by
      intro l
      have h2 : dedupNew (clean_lines lines) (dedup_preserve_order (l ++ clean_lines lines)) = [] := by
        refine dedupNew_eq_nil _ _ ?_
        intro y hy
        rw [mem_dedup]
        exact List.mem_append_right l hy
      rw [dedup_append _ _ (dedup_nodup (l ++ clean_lines lines)), h2, List.append_nil]
    cases s with
    | mk all pool history =>
      show RosterState.mk
          (dedup_preserve_order (dedup_preserve_order (all ++ clean_lines lines) ++ clean_lines lines))
          (dedup_preserve_order (dedup_preserve_order (pool ++ clean_lines lines) ++ clean_lines lines))
          history =
        RosterState.mk (dedup_preserve_order (all ++ clean_lines lines))
          (dedup_preserve_order (pool ++ clean_lines lines)) history
      rw [k all, k pool]
  · decide

theorem save_history_snoc : ∀ (hs : List String) (i : Nat) (name : String),
    save_history_content (hs ++ [name]) i =
      save_history_content hs i ++ (toString (i + hs.length + 1) ++ "," ++ name ++ "\n")
  | [], i, name => by
    simp [save_history_content, String.append_empty, String.empty_append]
  | x :: hs, i, name => by
    show toString (i + 1) ++ "," ++ x ++ "\n" ++ save_history_content (hs ++ [name]) (i + 1) =
      (toString (i + 1) ++ "," ++ x ++ "\n" ++ save_history_content hs (i + 1)) ++
        (toString (i + (x :: hs).length + 1) ++ "," ++ name ++ "\n")
    have harg : i + 1 + hs.length + 1 = i + (x :: hs).length + 1 := by
      simp only [List.length_cons]
      omega
    rw [save_history_snoc hs (i + 1) name, ← String.append_assoc, harg]

/-- C8: the CSV export writes exactly one record `i,name of newline` per
history entry with 1-based index in draw order and a trailing newline on
the final record; an empty history yields an empty file and the write
succeeds; the two-entry example produces exactly the expected bytes. -/
theorem export_history_csv :
    save_history_content [] 0 = "" ∧
    save_history_to_file true [] = some "" ∧
    (∀ (hs : List String) (name : String),
      save_history_content (hs ++ [name]) 0 =
        save_history_content hs 0 ++ (toString (hs.length + 1) ++ "," ++ name ++ "\n")) ∧
    save_history_content ["Ann", "Bob"] 0 = "1,Ann\n2,Bob\n" := by
  refine ⟨rfl, rfl, ?_, rfl⟩
  intro hs name
  have h := save_history_snoc hs 0 name
  simpa using h

/-- C2: a roster draw fails with EmptyPool on an empty pool; otherwise
the deciding index is one `uniform(0, |pool|-1)` sample of the shared
generator (taken after the animation's 26 samples), the winner is
`pool[idx]`, the element at `idx` is removed by a shift (take/drop), and
the winner is appended to the history. -/
theorem draw_from_roster_spec (s : RosterState) (r : RNG) :
    (s.pool = [] → mode_list_op3 s r = (s, r, Except.error DrawError.EmptyPool)) ∧
    (s.pool ≠ [] →
      animated_pick_index s.pool r = roster_draw_pick s r ∧
      (roster_draw_pick s r).1.toNat < s.pool.length ∧
      mode_list_op3 s r =
        ({ s with
            pool := s.pool.take ((roster_draw_pick s r).1.toNat) ++
              s.pool.drop ((roster_draw_pick s r).1.toNat + 1),
            history := s.history ++ [s.pool.getD ((roster_draw_pick s r).1.toNat) ""] },
         (roster_draw_pick s r).2,
         Except.ok (s.pool.getD ((roster_draw_pick s r).1.toNat) ""))) := by
  have hpick : roster_draw_pick s r =
      (((r.stream (r.pos + 26) % s.pool.length : Nat) : Int), (⟨r.stream, r.pos + 27⟩ : RNG)) := by
    unfold roster_draw_pick
    rw [uniform_idx]
    simp only [RNG.advance, Prod.mk.injEq, RNG.mk.injEq, true_and]
  constructor
  · exact mode_list_op3_empty s r
  · intro h
    refine ⟨?_, ?_, ?_⟩
    · rw [animated_pick_index_eq, hpick]
    · rw [hpick]
      simp only [Int.toNat_natCast]
      exact Nat.mod_lt _ (List.length_pos.2 h)
    · rw [mode_list_op3_eq s r h, hpick]
      simp only [Int.toNat_natCast]
      rw [List.eraseIdx_eq_take_drop_succ]
      rfl

/-- Witness for C2: the empty-pool branch at the fresh store and the
success branch at a three-name pool. -/
theorem draw_from_roster_spec_witness :
    mode_list_op3 roster_init zeroRNG = (roster_init, zeroRNG, Except.error DrawError.EmptyPool) ∧
    (animated_pick_index demoRoster.pool zeroRNG = roster_draw_pick demoRoster zeroRNG ∧
     (roster_draw_pick demoRoster zeroRNG).1.toNat < demoRoster.pool.length ∧
     mode_list_op3 demoRoster zeroRNG =
      ({ demoRoster with
          pool := demoRoster.pool.take ((roster_draw_pick demoRoster zeroRNG).1.toNat) ++
            demoRoster.pool.drop ((roster_draw_pick demoRoster zeroRNG).1.toNat + 1),
          history := demoRoster.history ++
            [demoRoster.pool.getD ((roster_draw_pick demoRoster zeroRNG).1.toNat) ""] },
       (roster_draw_pick demoRoster zeroRNG).2,
       Except.ok (demoRoster.pool.getD ((roster_draw_pick demoRoster zeroRNG).1.toNat) ""))) :=
  ⟨(draw_from_roster_spec roster_init zeroRNG).1 rfl,
   (draw_from_roster_spec demoRoster zeroRNG).2 (by decide)⟩

/-- C6: both draw entry points are atomic.  Every failure (EmptyPool on an
empty roster pool, NotConfigured for N = 0, EmptyPool on an exhausted
range pool) leaves the store and the generator untouched; every success
performs both the pool removal and the history append (in repeat mode the
pool is untouched and only the history grows). -/
theorem draws_atomic (s : RosterState) (t : RangeState) (r : RNG) :
    (s.pool = [] → mode_list_op3 s r = (s, r, Except.error DrawError.EmptyPool)) ∧
    (t.N = 0 → mode_range_op3 t r = (t, r, Except.error DrawError.NotConfigured)) ∧
    (0 < t.N → t.noRepeat = true → t.pool = [] →
      mode_range_op3 t r = (t, r, Except.error DrawError.EmptyPool)) ∧
    (s.pool ≠ [] →
      ∃ i, i < s.pool.length ∧
        (mode_list_op3 s r).1.pool = s.pool.eraseIdx i ∧
        (mode_list_op3 s r).1.history = s.history ++ [s.pool.getD i ""]) ∧
    (0 < t.N → t.noRepeat = true → t.pool ≠ [] →
      ∃ i, i < t.pool.length ∧
        (mode_range_op3 t r).1.pool = t.pool.eraseIdx i ∧
        (mode_range_op3 t r).1.history = t.history ++ [t.pool.getD i 0]) ∧
    (0 < t.N → t.noRepeat = false →
      ∃ v, (mode_range_op3 t r).1.pool = t.pool ∧
        (mode_range_op3 t r).1.history = t.history ++ [v] ∧
        (mode_range_op3 t r).2.2 = Except.ok v) := by
  refine ⟨mode_list_op3_empty s r, ?_, ?_, ?_, ?_, ?_⟩
  · intro h
    exact mode_range_op3_notconf t r (by omega)
  · intro hN hnr hp
    exact mode_range_op3_empty t r hN hnr hp
  · intro h
    rw [mode_list_op3_eq s r h]
    exact ⟨list_draw_idx s r, list_draw_idx_lt s r h, rfl, rfl⟩
  · intro hN hnr hp
    rw [mode_range_op3_eq t r hN hnr hp]
    exact ⟨range_draw_idx t r, range_draw_idx_lt t r hp, rfl, rfl⟩
  · intro hN hnr
    rw [mode_range_op3_repeat t r hN hnr]
    exact ⟨1 + ((r.stream (r.pos + 32) % t.N.toNat : Nat) : Int), rfl, rfl, rfl⟩

/-- Witness for C6 at concrete states: each failure branch and both
success branches. -/
theorem draws_atomic_witness :
    mode_list_op3 roster_init zeroRNG = (roster_init, zeroRNG, Except.error DrawError.EmptyPool) ∧
    mode_range_op3 range_init zeroRNG = (range_init, zeroRNG, Except.error DrawError.NotConfigured) ∧
    mode_range_op3 demoRangeEmptyPool zeroRNG =
      (demoRangeEmptyPool, zeroRNG, Except.error DrawError.EmptyPool) ∧
    (∃ i, i < demoRoster.pool.length ∧
      (mode_list_op3 demoRoster zeroRNG).1.pool = demoRoster.pool.eraseIdx i ∧
      (mode_list_op3 demoRoster zeroRNG).1.history = demoRoster.history ++ [demoRoster.pool.getD i ""]) ∧
    (∃ i, i < demoRange.pool.length ∧
      (mode_range_op3 demoRange zeroRNG).1.pool = demoRange.pool.eraseIdx i ∧
      (mode_range_op3 demoRange zeroRNG).1.history = demoRange.history ++ [demoRange.pool.getD i 0]) :=
  ⟨(draws_atomic roster_init range_init zeroRNG).1 rfl,
   (draws_atomic roster_init range_init zeroRNG).2.1 rfl,
   (draws_atomic roster_init demoRangeEmptyPool zeroRNG).2.2.1 (by decide) rfl rfl,
   (draws_atomic demoRoster range_init zeroRNG).2.2.2.1 (by decide),
   (draws_atomic roster_init demoRange zeroRNG).2.2.2.2.1 (by decide) rfl (by decide)⟩

/-- C9: set_N with n ≤ 0 fails with DomainError, forcing N to 0 and
clearing both vectors while leaving the no-repeat flag unchanged; set_N
with n > 0 stores N := n, clears the history, keeps the flag, succeeds,
and (when no-repeat is on) rebuilds the pool as `[1..n]`. -/
theorem set_N_spec (s : RangeState) (n : Int) :
    (n ≤ 0 → mode_range_op1 s n =
      (⟨0, s.noRepeat, [], []⟩, Except.error DrawError.DomainError)) ∧
    (0 < n →
      ((mode_range_op1 s n).1.N = n ∧
       (mode_range_op1 s n).1.history = [] ∧
       (mode_range_op1 s n).1.noRepeat = s.noRepeat ∧
       (mode_range_op1 s n).2 = Except.ok () ∧
       (s.noRepeat = true → (mode_range_op1 s n).1.pool = rangeInts n))) := by
  constructor
  · exact mode_range_op1_neg s n
  · intro hn
    rw [mode_range_op1_pos s n hn]
    exact ⟨rfl, rfl, rfl, rfl, fun _ => rfl⟩

/-- Witness for C9: the rejection branch at n = -1 and the success branch
at n = 3 from a dirty store. -/
theorem set_N_spec_witness :
    mode_range_op1 demoRange5 (-1) =
      (⟨0, demoRange5.noRepeat, [], []⟩, Except.error DrawError.DomainError) ∧
    ((mode_range_op1 demoRange5 3).1.N = 3 ∧
     (mode_range_op1 demoRange5 3).1.history = [] ∧
     (mode_range_op1 demoRange5 3).1.noRepeat = demoRange5.noRepeat ∧
     (mode_range_op1 demoRange5 3).2 = Except.ok () ∧
     (demoRange5.noRepeat = true → (mode_range_op1 demoRange5 3).1.pool = rangeInts 3)) :=
  ⟨(set_N_spec demoRange5 (-1)).1 (by decide),
   (set_N_spec demoRange5 3).2 (by decide)⟩

/-- C10: the animation shares the generator with the deciding pick.  A
roster draw leaves the cursor 27 samples ahead and the winner is selected
by the 27th raw draw; a no-repeat range draw discards 33 animation
samples and the result is selected by the 34th raw draw, reduced mod the
pool size.  The outcome of a seeded draw therefore depends on the
animation's consumption. -/
theorem animation_shares_rng (s : RosterState) (t : RangeState) (r : RNG) :
    (s.pool ≠ [] →
      ((mode_list_op3 s r).2.1.pos = r.pos + 27 ∧
       (mode_list_op3 s r).2.2 =
         Except.ok (s.pool.getD (r.stream (r.pos + 26) % s.pool.length) ""))) ∧
    (0 < t.N → t.noRepeat = true → t.pool ≠ [] →
      ((mode_range_op3 t r).2.1.pos = r.pos + 34 ∧
       (mode_range_op3 t r).2.2 =
         Except.ok (t.pool.getD (r.stream (r.pos + 33) % t.pool.length) 0))) := by
  constructor
  · intro h
    rw [mode_list_op3_eq s r h]
    exact ⟨rfl, rfl⟩
  · intro hN hnr hp
    rw [mode_range_op3_eq t r hN hnr hp]
    exact ⟨rfl, rfl⟩

/-- Witness for C10 at concrete pools and the constant-zero generator. -/
theorem animation_shares_rng_witness :
    ((mode_list_op3 demoRoster zeroRNG).2.1.pos = zeroRNG.pos + 27 ∧
     (mode_list_op3 demoRoster zeroRNG).2.2 =
       Except.ok (demoRoster.pool.getD
         (zeroRNG.stream (zeroRNG.pos + 26) % demoRoster.pool.length) "")) ∧
    ((mode_range_op3 demoRange zeroRNG).2.1.pos = zeroRNG.pos + 34 ∧
     (mode_range_op3 demoRange zeroRNG).2.2 =
       Except.ok (demoRange.pool.getD
         (zeroRNG.stream (zeroRNG.pos + 33) % demoRange.pool.length) 0)) :=
  ⟨(animation_shares_rng demoRoster demoRange zeroRNG).1 (by decide),
   (animation_shares_rng demoRoster demoRange zeroRNG).2 (by decide) rfl (by decide)⟩

end Draw
